import Mathlib

/-!
Verification of the `dbar` slider program (src/main.rs) via a shallow
embedding in Lean 4.  Rust `f32` arithmetic is idealised as exact rational
arithmetic (`ℚ`); every counterexample below is robust to the idealisation
(checked against the magnitudes involved).  Machine integers (`i32`, `u32`)
are modelled as `ℤ` / `ℕ`, with explicit truncation/saturation where the
source casts between numeric types.
-/

namespace Dbar

/-- The command-line options record, mirroring `struct Options` in
src/main.rs (field types idealised: `f32` as `ℚ`, `u32`/`u64` as `ℕ`). -/
structure Options where
  start : ℚ
  «end» : ℚ
  command : String
  command_on_click : String
  floating : Bool
  width : ℕ
  height : ℕ
  bg_col : String
  fg_col : String
  no_mouse_capture : Bool
  initial_percent : ℚ
  title : String
  show_value : Bool
  refresh_rate : ℕ

/-- Rust `f32::round`: round to the nearest integer, ties away from zero. -/
def rustRound (q : ℚ) : ℚ :=
  if 0 ≤ q then (⌊q + 1/2⌋ : ℤ) else (⌈q - 1/2⌉ : ℤ)

/-- The unrounded interpolation inside the `LazyResult` closure
(src/main.rs lines 110-112):
`range = (end - start).abs(); start + range * (x as f32 / width as f32)`. -/
def interpRaw (opt : Options) (x : ℤ) : ℚ :=
  let range := |opt.«end» - opt.start|
  opt.start + range * ((x : ℚ) / (opt.width : ℚ))

/-- The full closure passed to `LazyResult::new` (src/main.rs lines 110-115):
the interpolation, rounded unless `--floating` is set. -/
def dbarCalculation (opt : Options) (x : ℤ) : ℚ :=
  if opt.floating then interpRaw opt x else rustRound (interpRaw opt x)

/-- A default options record: the clap defaults from the `structopt`
attributes in src/main.rs. -/
def defaultOptions : Options where
  start := 0
  «end» := 100
  command := ""
  command_on_click := ""
  floating := false
  width := 600
  height := 50
  bg_col := "#222244"
  fg_col := "#9c99c3"
  no_mouse_capture := false
  initial_percent := 1/2
  title := "dbar"
  show_value := false
  refresh_rate := 15

/-- The configuration of end-to-end scenario 2 of the spec:
`start = -10`, `end = 10`, `width = 21`, floating mode on. -/
def scenario2Options : Options :=
  { defaultOptions with start := -10, «end» := 10, width := 21, floating := true }

/-- Rust `as i32` applied to an `f32` value: truncation toward zero,
saturating to the `i32` range. -/
def f32ToI32 (q : ℚ) : ℤ :=
  let t : ℤ := if 0 ≤ q then ⌊q⌋ else ⌈q⌉
  if t < -(2^31) then -(2^31) else if 2^31 - 1 < t then 2^31 - 1 else t

/-- One update of `fill_pixels` in the redraw branch (src/main.rs lines
159-169): on the first frame `(initial_percent * width as f32) as i32`;
in uncaptured mode the absolute mouse x; otherwise the accumulated
relative delta clamped to `[0, width]`.  `opt.width as i32` is modelled
as the exact cast `(opt.width : ℤ)`, which agrees with the source for
every width at which a window can actually be created (far below 2^31). -/
def fillUpdate (opt : Options) (first_draw : Bool)
    (fill_pixels mouse_movement mouse_x : ℤ) : ℤ :=
  if first_draw then f32ToI32 (opt.initial_percent * (opt.width : ℚ))
  else if opt.no_mouse_capture then mouse_x
  else
    let fp := fill_pixels + mouse_movement
    if fp > (opt.width : ℤ) then (opt.width : ℤ)
    else if fp < 0 then 0
    else fp

/-- The two input-sanitization asserts at startup (src/main.rs lines 84-87):
`assert!(start < end)` and `assert!(width > 1 || height > 1)`.
`true` means both assertions pass (the program does not abort). -/
def validationAsserts (opt : Options) : Bool :=
  decide (opt.start < opt.«end») && (decide (opt.width > 1) || decide (opt.height > 1))

/-- `struct LazyResult` (src/main.rs lines 212-218): a calculation together
with its memoization cache.  The Rust `HashMap<i32, f32>` is modelled as an
association list whose lookup returns the most recent insertion, which is
observationally the map `insert`/`get` behaviour. -/
structure LazyResult where
  calculation : ℤ → ℚ
  valueMap : List (ℤ × ℚ)

/-- `HashMap::get` on the modelled cache. -/
def mapGet (m : List (ℤ × ℚ)) (x : ℤ) : Option ℚ :=
  match m with
  | [] => none
  | (k, v) :: rest => if k = x then some v else mapGet rest x

/-- `LazyResult::new` (src/main.rs lines 224-229). -/
def LazyResult.new (calculation : ℤ → ℚ) : LazyResult :=
  { calculation := calculation, valueMap := [] }

/-- `LazyResult::value` (src/main.rs lines 232-241): run the calculation
only if no value is cached for `x`.  Besides the result and the updated
cache it returns whether `calculation` was invoked by this call — the
call-count instrumentation hook the spec mentions. -/
def LazyResult.value (s : LazyResult) (x : ℤ) : ℚ × LazyResult × Bool :=
  match mapGet s.valueMap x with
  | none =>
      let novel_value := s.calculation x
      (novel_value, { s with valueMap := (x, novel_value) :: s.valueMap }, true)
  | some v => (v, s, false)

/-- The cache never stores anything but results of the calculation.  Holds
for the empty cache of `LazyResult.new` and is preserved by
`LazyResult.value`. -/
def LazyResult.Consistent (s : LazyResult) : Prop :=
  ∀ x v, mapGet s.valueMap x = some v → v = s.calculation x

/-- The keyboard keys the event match distinguishes (src/main.rs
lines 128-150): `Keycode::Escape`, `Keycode::Return`, anything else. -/
inductive Keycode where
  | escape
  | ret
  | other
deriving DecidableEq

/-- The SDL events the main-loop match distinguishes (src/main.rs
lines 127-151). -/
inductive Event where
  | keyDown (keycode : Keycode)
  | quit
  | mouseButtonDownLeft
  | other
deriving DecidableEq

/-- The effect of one arm of the event match: leave the loop
(`break 'running`), having printed `printed` if set, or stay in the loop,
having spawned `command_on_click` with the given value if `ran` is set. -/
inductive LoopAction where
  | halt (printed : Option ℚ)
  | keep (ran : Option (String × ℚ))
deriving DecidableEq

/-- The event match of the main loop (src/main.rs lines 127-152), with the
`dbar_value.value(fill_pixels)` calls threaded through the `LazyResult`
state. -/
def handleEvent (opt : Options) (dbar : LazyResult) (fill_pixels : ℤ)
    (e : Event) : LoopAction × LazyResult :=
  match e with
  | .keyDown .escape => (.halt none, dbar)
  | .quit => (.halt none, dbar)
  | .mouseButtonDownLeft =>
      if opt.command_on_click ≠ "" then
        let r := dbar.value fill_pixels
        (.keep (some (opt.command_on_click, r.1)), r.2.1)
      else
        let r := dbar.value fill_pixels
        (.halt (some r.1), r.2.1)
  | .keyDown .ret =>
      let r := dbar.value fill_pixels
      (.halt (some r.1), r.2.1)
  | .keyDown .other => (.keep none, dbar)
  | .other => (.keep none, dbar)

/-- The observable outcome of the side-effect section of a redrawn frame:
whether the value-changed test fired, the value written into the window
title (if any), the continuous command spawned with its value (if any),
the new `last_val`, and the final cache state. -/
structure FrameEffects where
  value_changed : Bool
  title_update : Option ℚ
  command_run : Option (String × ℚ)
  last_val : Option ℚ
  dbar : LazyResult

/-- The side-effect section of a redrawn frame (src/main.rs lines 179-202):
compute `value_changed` only when `-c` or `-v` is configured, update
`last_val` when the value changed, then conditionally update the title and
run the continuous command.  Every `dbar_value.value(fill_pixels)` call of
the source is threaded through the `LazyResult` state. -/
def frameEffects (opt : Options) (dbar : LazyResult) (fill_pixels : ℤ)
    (last_val : Option ℚ) : FrameEffects :=
  let have_command : Bool := decide (opt.command ≠ "")
  let step1 :=
    if have_command || opt.show_value then
      let r₁ := dbar.value fill_pixels
      let changed : Bool :=
        match last_val with
        | some v => decide (v ≠ r₁.1)
        | none => true
      if changed then
        let r₂ := r₁.2.1.value fill_pixels
        (changed, some r₂.1, r₂.2.1)
      else (changed, last_val, r₁.2.1)
    else (false, last_val, dbar)
  let step2 :=
    if opt.show_value && step1.1 then
      let r₃ := step1.2.2.value fill_pixels
      (some r₃.1, r₃.2.1)
    else (none, step1.2.2)
  let step3 :=
    if have_command && step1.1 then
      let r₄ := step2.2.value fill_pixels
      (some (opt.command, r₄.1), r₄.2.1)
    else (none, step2.2)
  { value_changed := step1.1, title_update := step2.1,
    command_run := step3.1, last_val := step1.2.1, dbar := step3.2 }

/-- Rust `str::replace` specialised to the pattern `"%v"` (src/main.rs
line 260): scan left to right, replacing each non-overlapping occurrence
of `%v` with `rep`. -/
def substPercentV : List Char → List Char → List Char
  | [], _ => []
  | '%' :: 'v' :: rest, rep => rep ++ substPercentV rest rep
  | c :: rest, rep => c :: substPercentV rest rep

/-- Whether `"%v"` occurs as a substring. -/
def containsPV : List Char → Bool
  | [] => false
  | '%' :: 'v' :: _ => true
  | _ :: rest => containsPV rest

/-- `run_command` (src/main.rs lines 258-260), up to the spawn: the string
handed to `sh -c` (or `cmd /C`) is the template with every `%v` replaced by
`value.to_string()`; the textual form of the value is supplied as a string,
Rust float formatting being outside the numeric model. -/
def run_command (command : String) (valueText : String) : String :=
  ⟨substPercentV command.data valueText.data⟩

/-- `sdl2::pixels::Color::RGB`. -/
structure Color where
  r : ℕ
  g : ℕ
  b : ℕ
deriving DecidableEq

/-- The value of one hexadecimal digit as parsed by
`u8::from_str_radix(_, 16)`; `none` when the character is not a hex digit. -/
def hexDigitVal (c : Char) : Option ℕ :=
  if '0' ≤ c ∧ c ≤ '9' then some (c.toNat - '0'.toNat)
  else if 'a' ≤ c ∧ c ≤ 'f' then some (10 + (c.toNat - 'a'.toNat))
  else if 'A' ≤ c ∧ c ≤ 'F' then some (10 + (c.toNat - 'A'.toNat))
  else none

/-- Membership in the regex character class `[a-f,A-F,0-9]` of
src/main.rs line 246 — note the class contains the comma as well as the
three hex ranges. -/
def inColorClass (c : Char) : Bool :=
  ('a' ≤ c && c ≤ 'f') || c = ',' || ('A' ≤ c && c ≤ 'F') || ('0' ≤ c && c ≤ '9')

/-- `Regex::new(r"^#[a-f,A-F,0-9]{6}").is_match(s)`: the string starts with
`#` followed by at least six characters of the class.  There is no `$`
anchor, so trailing characters are ignored. -/
def regexMatches : List Char → Bool
  | c0 :: c1 :: c2 :: c3 :: c4 :: c5 :: c6 :: _ =>
      c0 = '#' && inColorClass c1 && inColorClass c2 && inColorClass c3 &&
      inColorClass c4 && inColorClass c5 && inColorClass c6
  | _ => false

/-- `u8::from_str_radix(&s[i..i+2], 16)` on a two-character slice. -/
def parseHexByte (c d : Char) : Option ℕ :=
  match hexDigitVal c, hexDigitVal d with
  | some hi, some lo => some (16 * hi + lo)
  | _, _ => none

/-- `string_to_color` (src/main.rs lines 244-256).  `none` models a panic:
either the regex check fails, or one of the three `unwrap`ed two-digit
parses fails (possible despite a regex match, since the class admits
commas).  The three byte slices `[1..3]`, `[3..5]`, `[5..7]` are the char
pairs at positions 1-6, which are ASCII whenever the regex matched. -/
def string_to_color (s : List Char) : Option Color :=
  if regexMatches s then
    match s with
    | _ :: c1 :: c2 :: c3 :: c4 :: c5 :: c6 :: _ =>
        match parseHexByte c1 c2, parseHexByte c3 c4, parseHexByte c5 c6 with
        | some r, some g, some b => some ⟨r, g, b⟩
        | _, _, _ => none
    | _ => none
  else none

/-- Following the spec's words: the exact `#rrggbb` pattern — the whole
string is a `#` followed by six hexadecimal digits and nothing else. -/
def specColorPattern : List Char → Bool
  | c0 :: c1 :: c2 :: c3 :: c4 :: c5 :: c6 :: rest =>
      c0 = '#' && (hexDigitVal c1).isSome && (hexDigitVal c2).isSome &&
      (hexDigitVal c3).isSome && (hexDigitVal c4).isSome &&
      (hexDigitVal c5).isSome && (hexDigitVal c6).isSome && rest.isEmpty
  | _ => false

/-- The amended pattern: the string *starts with* `#` followed by six
hexadecimal digits; trailing characters are ignored. -/
def prefixColorPattern : List Char → Bool
  | c0 :: c1 :: c2 :: c3 :: c4 :: c5 :: c6 :: _ =>
      c0 = '#' && (hexDigitVal c1).isSome && (hexDigitVal c2).isSome &&
      (hexDigitVal c3).isSome && (hexDigitVal c4).isSome &&
      (hexDigitVal c5).isSome && (hexDigitVal c6).isSome
  | _ => false

/-! ### Helper lemmas about `rustRound` and `interpRaw` -/

lemma rustRound_intCast (q : ℚ) : ∃ n : ℤ, rustRound q = (n : ℚ) := by
  unfold rustRound
  split
  · exact ⟨⌊q + 1/2⌋, rfl⟩
  · exact ⟨⌈q - 1/2⌉, rfl⟩

lemma abs_sub_rustRound_le (q : ℚ) : |q - rustRound q| ≤ 1/2 := by
  unfold rustRound
  split
  · have h1 : ((⌊q + 1/2⌋ : ℤ) : ℚ) ≤ q + 1/2 := Int.floor_le _
    have h2 : q + 1/2 < (⌊q + 1/2⌋ : ℤ) + 1 := Int.lt_floor_add_one _
    rw [abs_le]
    constructor <;> push_cast at h1 h2 ⊢ <;> linarith
  · have h1 : q - 1/2 ≤ ((⌈q - 1/2⌉ : ℤ) : ℚ) := Int.le_ceil _
    have h2 : ((⌈q - 1/2⌉ : ℤ) : ℚ) < (q - 1/2) + 1 := Int.ceil_lt_add_one _
    rw [abs_le]
    constructor <;> push_cast at h1 h2 ⊢ <;> linarith

lemma rustRound_nearest (q : ℚ) (n : ℤ) : |q - rustRound q| ≤ |q - (n : ℚ)| := by
  obtain ⟨m, hm⟩ := rustRound_intCast q
  rw [hm]
  by_cases hmn : m = n
  · rw [hmn]
  · have h1 : |q - (m : ℚ)| ≤ 1/2 := by rw [← hm]; exact abs_sub_rustRound_le q
    have h2 : (1 : ℚ) ≤ |(m : ℚ) - (n : ℚ)| := by
      have hz : (1 : ℤ) ≤ |m - n| := Int.one_le_abs (sub_ne_zero.mpr hmn)
      calc (1 : ℚ) = ((1 : ℤ) : ℚ) := by norm_num
      _ ≤ ((|m - n| : ℤ) : ℚ) := by exact_mod_cast hz
      _ = |(m : ℚ) - (n : ℚ)| := by push_cast; ring_nf
    have h3 : |(m : ℚ) - (n : ℚ)| ≤ |(m : ℚ) - q| + |q - (n : ℚ)| := abs_sub_le _ _ _
    have h4 : |(m : ℚ) - q| = |q - (m : ℚ)| := abs_sub_comm _ _
    linarith

lemma rustRound_tie (q : ℚ) (h : |q - rustRound q| = 1/2) :
    |rustRound q| = |q| + 1/2 := by
  unfold rustRound at h ⊢
  split at h <;> rename_i hq
  · rw [if_pos hq]
    have h1 : ((⌊q + 1/2⌋ : ℤ) : ℚ) ≤ q + 1/2 := Int.floor_le _
    have h2 : q + 1/2 < (⌊q + 1/2⌋ : ℤ) + 1 := Int.lt_floor_add_one _
    rcases (abs_eq (by norm_num : (0:ℚ) ≤ 1/2)).mp h with h' | h'
    · exfalso; linarith
    · have hr : ((⌊q + 1/2⌋ : ℤ) : ℚ) = q + 1/2 := by linarith
      rw [hr, abs_of_nonneg (by linarith), abs_of_nonneg hq]
  · rw [if_neg hq]
    push_neg at hq
    have h1 : q - 1/2 ≤ ((⌈q - 1/2⌉ : ℤ) : ℚ) := Int.le_ceil _
    have h2 : ((⌈q - 1/2⌉ : ℤ) : ℚ) < (q - 1/2) + 1 := Int.ceil_lt_add_one _
    rcases (abs_eq (by norm_num : (0:ℚ) ≤ 1/2)).mp h with h' | h'
    · have hr : ((⌈q - 1/2⌉ : ℤ) : ℚ) = q - 1/2 := by linarith
      rw [hr, abs_of_neg (by linarith), abs_of_neg hq]
      ring
    · exfalso; linarith

lemma interpRaw_bounds (opt : Options) (x : ℤ) (h1 : opt.start < opt.«end»)
    (h2 : 0 < opt.width) (hx0 : 0 ≤ x) (hxw : x ≤ (opt.width : ℤ)) :
    opt.start ≤ interpRaw opt x ∧ interpRaw opt x ≤ opt.«end» := by
  have hw : (0 : ℚ) < (opt.width : ℚ) := by exact_mod_cast h2
  have hxq : (0 : ℚ) ≤ (x : ℚ) := by exact_mod_cast hx0
  have hxwq : (x : ℚ) ≤ (opt.width : ℚ) := by exact_mod_cast hxw
  have ht0 : (0 : ℚ) ≤ (x : ℚ) / (opt.width : ℚ) := div_nonneg hxq hw.le
  have ht1 : (x : ℚ) / (opt.width : ℚ) ≤ 1 := (div_le_one hw).mpr hxwq
  have habs : |opt.«end» - opt.start| = opt.«end» - opt.start :=
    abs_of_nonneg (by linarith)
  unfold interpRaw
  rw [habs]
  constructor <;> nlinarith

/-! ### Claim theorems -/

/-- C1 (counterexample): the code divides by `width`, not `width - 1`, so
in scenario 2 of the spec (`start = -10`, `end = 10`, `width = 21`,
floating mode) fill position `width - 1 = 20` maps to `190/21 ≈ 9.05`,
not to `end = 10`. -/
theorem c1_counterexample :
    scenario2Options.floating = true ∧
    scenario2Options.start < scenario2Options.«end» ∧
    1 < scenario2Options.width ∧
    dbarCalculation scenario2Options ((scenario2Options.width : ℤ) - 1) ≠
      scenario2Options.«end» := by
  refine ⟨rfl, by norm_num [scenario2Options, defaultOptions], by norm_num [scenario2Options, defaultOptions], ?_⟩
  norm_num [dbarCalculation, interpRaw, scenario2Options, defaultOptions]

/-- C1 (amended): the interpolation maps the extreme *fill positions* of
the clamped range `[0, width]` to the range endpoints: `interpolate(0) =
start` and `interpolate(width) = end`; in floating mode these are the
mapped values themselves.  (The source divides by `width`, so pixel
`width - 1` does not map to `end`; fill position `width` is reachable
because the relative-mode clamp allows it.) -/
theorem c1_endpoints (opt : Options) (h1 : opt.start < opt.«end»)
    (h2 : 1 < opt.width) :
    interpRaw opt 0 = opt.start ∧
    interpRaw opt (opt.width : ℤ) = opt.«end» ∧
    (opt.floating = true →
      dbarCalculation opt 0 = opt.start ∧
      dbarCalculation opt (opt.width : ℤ) = opt.«end») := by
  have hw : (opt.width : ℚ) ≠ 0 := by
    have : 0 < opt.width := by omega
    exact_mod_cast this.ne'
  have habs : |opt.«end» - opt.start| = opt.«end» - opt.start :=
    abs_of_nonneg (by linarith)
  have e0 : interpRaw opt 0 = opt.start := by
    unfold interpRaw; simp
  have ew : interpRaw opt (opt.width : ℤ) = opt.«end» := by
    unfold interpRaw
    rw [habs]
    push_cast
    rw [div_self hw]
    ring
  refine ⟨e0, ew, fun hf => ?_⟩
  unfold dbarCalculation
  rw [hf]
  exact ⟨by simpa using e0, by simpa using ew⟩

/-- C1 witness: the amended claim at scenario 2 of the spec — fill
position 0 maps to `-10` and fill position `width = 21` maps to `10`. -/
theorem c1_witness :
    interpRaw scenario2Options 0 = scenario2Options.start ∧
    interpRaw scenario2Options (scenario2Options.width : ℤ) = scenario2Options.«end» ∧
    dbarCalculation scenario2Options 0 = scenario2Options.start ∧
    dbarCalculation scenario2Options (scenario2Options.width : ℤ) =
      scenario2Options.«end» := by
  have h := c1_endpoints scenario2Options
    (by norm_num [scenario2Options, defaultOptions])
    (by norm_num [scenario2Options, defaultOptions])
  exact ⟨h.1, h.2.1, (h.2.2 rfl).1, (h.2.2 rfl).2⟩

/-- The configuration refuting C2: a non-integer `start`. -/
def c2Options : Options :=
  { defaultOptions with start := 2/5, «end» := 52/5, width := 2 }

/-- C2 (counterexample): with `start = 0.4`, `end = 10.4`, `width = 2` and
rounding on (the default), pixel `0` lies in `[0, width-1]` but maps to
`round(0.4) = 0 < start`, so the mapped value leaves `[start, end]`. -/
theorem c2_counterexample :
    c2Options.start < c2Options.«end» ∧ 1 < c2Options.width ∧
    c2Options.floating = false ∧
    (0 : ℤ) ≤ (c2Options.width : ℤ) - 1 ∧
    dbarCalculation c2Options 0 < c2Options.start := by
  refine ⟨by norm_num [c2Options, defaultOptions], by norm_num [c2Options, defaultOptions], rfl,
    by norm_num [c2Options, defaultOptions], ?_⟩
  norm_num [dbarCalculation, interpRaw, rustRound, c2Options, defaultOptions]

/-- C2 (amended): for every pixel `x` in `[0, width-1]` (indeed in
`[0, width]`) the unrounded interpolation lies in `[start, end]`; hence the
mapped value lies in `[start, end]` in floating mode, and within `1/2` of
that interval — between `start - 1/2` and `end + 1/2` — when rounding is
on. -/
theorem c2_bounds (opt : Options) (x : ℤ) (h1 : opt.start < opt.«end»)
    (h2 : 1 < opt.width) (hx0 : 0 ≤ x) (hxw : x ≤ (opt.width : ℤ) - 1) :
    (opt.start ≤ interpRaw opt x ∧ interpRaw opt x ≤ opt.«end») ∧
    (opt.floating = true →
      opt.start ≤ dbarCalculation opt x ∧ dbarCalculation opt x ≤ opt.«end») ∧
    (opt.start - 1/2 ≤ dbarCalculation opt x ∧
      dbarCalculation opt x ≤ opt.«end» + 1/2) := by
  have hb := interpRaw_bounds opt x h1 (by omega) hx0 (by omega)
  refine ⟨hb, fun hf => ?_, ?_⟩
  · unfold dbarCalculation; rw [hf]; simpa using hb
  · unfold dbarCalculation
    split
    · constructor <;> linarith [hb.1, hb.2]
    · have hr := abs_sub_rustRound_le (interpRaw opt x)
      rw [abs_le] at hr
      constructor <;> linarith [hb.1, hb.2, hr.1, hr.2]

/-- C2 witness: the amended bounds at scenario 2, pixel 20. -/
theorem c2_bounds_witness :
    (scenario2Options.start ≤ interpRaw scenario2Options 20 ∧
     interpRaw scenario2Options 20 ≤ scenario2Options.«end») ∧
    (scenario2Options.start ≤ dbarCalculation scenario2Options 20 ∧
     dbarCalculation scenario2Options 20 ≤ scenario2Options.«end») ∧
    (scenario2Options.start - 1/2 ≤ dbarCalculation scenario2Options 20 ∧
     dbarCalculation scenario2Options 20 ≤ scenario2Options.«end» + 1/2) := by
  have h := c2_bounds scenario2Options 20
    (by norm_num [scenario2Options, defaultOptions])
    (by norm_num [scenario2Options, defaultOptions]) (by norm_num)
    (by norm_num [scenario2Options, defaultOptions])
  exact ⟨h.1, h.2.1 rfl, h.2.2⟩

/-- The configuration exhibiting the validation bug: `width = 0`. -/
def c4Options : Options := { defaultOptions with width := 0 }

/-- C4 (code bug): the sanitization assert is `width > 1 || height > 1`
— a disjunction — so `width = 0` with the default `height = 50` passes
validation, although the assert's own message says width *and* height
must be positive and the spec says each must exceed 1. -/
theorem c4_assert_passes_zero_width :
    validationAsserts c4Options = true ∧ c4Options.width ≤ 1 := by
  constructor
  · simp [validationAsserts, c4Options, defaultOptions]
  · norm_num [c4Options, defaultOptions]

/-- C6: when floating mode is off the mapped value is `rustRound` of the
unrounded interpolation, which is an integer at distance at most `1/2`
from it, no integer is closer, and at a tie (distance exactly `1/2`) the
result's magnitude exceeds the interpolation's — ties round half away from
zero; when floating mode is on the interpolation is returned unchanged. -/
theorem c6_round_mode (opt : Options) (x : ℤ) :
    dbarCalculation opt x =
      (if opt.floating then interpRaw opt x else rustRound (interpRaw opt x)) ∧
    (∃ n : ℤ, rustRound (interpRaw opt x) = (n : ℚ)) ∧
    |interpRaw opt x - rustRound (interpRaw opt x)| ≤ 1/2 ∧
    (∀ n : ℤ, |interpRaw opt x - rustRound (interpRaw opt x)| ≤
      |interpRaw opt x - (n : ℚ)|) ∧
    (|interpRaw opt x - rustRound (interpRaw opt x)| = 1/2 →
      |rustRound (interpRaw opt x)| = |interpRaw opt x| + 1/2) :=
  ⟨rfl, rustRound_intCast _, abs_sub_rustRound_le _,
   fun n => rustRound_nearest _ n, fun h => rustRound_tie _ h⟩

/-- C6 witness: with the default options, pixel 3 interpolates to exactly
`1/2`, a tie, which rounds away from zero to `1`. -/
theorem c6_round_mode_witness :
    |interpRaw defaultOptions 3 - rustRound (interpRaw defaultOptions 3)| = 1/2 ∧
    |rustRound (interpRaw defaultOptions 3)| = |interpRaw defaultOptions 3| + 1/2 := by
  have h : |interpRaw defaultOptions 3 - rustRound (interpRaw defaultOptions 3)| = 1/2 := by
    norm_num [interpRaw, rustRound, defaultOptions]
  exact ⟨h, (c6_round_mode defaultOptions 3).2.2.2.2 h⟩

/-- The configuration refuting C3's first-frame clause: an
`--initial-percent` above 1, which the program never validates. -/
def c3aOptions : Options := { defaultOptions with initial_percent := 2 }

/-- The configuration refuting C3's absolute-read clause:
`--no-mouse-capture`. -/
def c3bOptions : Options := { defaultOptions with no_mouse_capture := true }

/-- C3 (counterexample): `fill_pixels` does leave `[0, width]`.  With
`initial_percent = 2` (unvalidated) the first-frame initialization yields
`1200 > width = 600`; and in uncaptured mode the absolute mouse read is
stored unclamped, e.g. mouse x `700 > width = 600`. -/
theorem c3_counterexample :
    (c3aOptions.width : ℤ) < fillUpdate c3aOptions true 0 0 0 ∧
    (c3bOptions.width : ℤ) < fillUpdate c3bOptions false 0 0 700 := by
  constructor
  · norm_num [fillUpdate, f32ToI32, c3aOptions, defaultOptions]
  · norm_num [fillUpdate, c3bOptions, defaultOptions]

/-- C3 (amended): only the relative-mode delta accumulation clamps
unconditionally — for deltas of arbitrary sign and magnitude it lands in
`[0, width]`.  The first-frame initialization lands in `[0, width]` only
under the documented (but unvalidated) precondition
`initial_percent ∈ [0, 1]`, and the uncaptured-mode absolute read stores
the mouse x unclamped. -/
theorem c3_fill_invariant (opt : Options)
    (fill_pixels mouse_movement mouse_x : ℤ) :
    (opt.no_mouse_capture = false →
      0 ≤ fillUpdate opt false fill_pixels mouse_movement mouse_x ∧
      fillUpdate opt false fill_pixels mouse_movement mouse_x ≤ (opt.width : ℤ)) ∧
    (0 ≤ opt.initial_percent → opt.initial_percent ≤ 1 →
      0 ≤ fillUpdate opt true fill_pixels mouse_movement mouse_x ∧
      fillUpdate opt true fill_pixels mouse_movement mouse_x ≤ (opt.width : ℤ)) ∧
    (opt.no_mouse_capture = true →
      fillUpdate opt false fill_pixels mouse_movement mouse_x = mouse_x) := by
  refine ⟨fun hnc => ?_, fun h0 h1 => ?_, fun hnc => ?_⟩
  · simp only [fillUpdate, Bool.false_eq_true, if_false, hnc]
    split
    · constructor <;> omega
    · split <;> omega
  · have hwq : (0 : ℚ) ≤ (opt.width : ℚ) := by positivity
    have hq0 : (0 : ℚ) ≤ opt.initial_percent * (opt.width : ℚ) := mul_nonneg h0 hwq
    have hq1 : opt.initial_percent * (opt.width : ℚ) ≤ (opt.width : ℚ) := by nlinarith
    have ht0 : 0 ≤ ⌊opt.initial_percent * (opt.width : ℚ)⌋ := Int.floor_nonneg.mpr hq0
    have htw : ⌊opt.initial_percent * (opt.width : ℚ)⌋ ≤ (opt.width : ℤ) := by
      have : ((⌊opt.initial_percent * (opt.width : ℚ)⌋ : ℤ) : ℚ) ≤ (opt.width : ℚ) :=
        le_trans (Int.floor_le _) hq1
      exact_mod_cast this
    have h31 : ((2:ℤ)^31 : ℤ) = 2147483648 := by norm_num
    simp only [fillUpdate, if_true, f32ToI32, if_pos hq0]
    split
    · omega
    · split <;> omega
  · simp [fillUpdate, hnc]

/-- C3 witness: the amended invariant at the default configuration — a
huge relative delta stays clamped, and the first-frame initialization from
the default `initial_percent = 1/2` lands inside `[0, width]`. -/
theorem c3_fill_invariant_witness :
    (0 ≤ fillUpdate defaultOptions false 300 1000000000 0 ∧
     fillUpdate defaultOptions false 300 1000000000 0 ≤ (defaultOptions.width : ℤ)) ∧
    (0 ≤ fillUpdate defaultOptions true 300 1000000000 0 ∧
     fillUpdate defaultOptions true 300 1000000000 0 ≤ (defaultOptions.width : ℤ)) :=
  ⟨(c3_fill_invariant defaultOptions 300 1000000000 0).1 rfl,
   (c3_fill_invariant defaultOptions 300 1000000000 0).2.1
     (by norm_num [defaultOptions]) (by norm_num [defaultOptions])⟩

/-- C5: the lazy cache is transparent and memoizing.  For any state whose
cache holds only results of the calculation (true of `LazyResult.new` and
preserved by every call): `value x` returns exactly `calculation x`; an
immediate second call with the same `x` returns the identical value and
state without invoking the calculation (the `false` flag); and a call does
not alter the cache at any other key. -/
theorem c5_cache (f : ℤ → ℚ) (s : LazyResult) (x y : ℤ) (hs : s.Consistent) :
    (LazyResult.new f).Consistent ∧
    (s.value x).1 = s.calculation x ∧
    (s.value x).2.1.Consistent ∧
    (s.value x).2.1.calculation = s.calculation ∧
    (s.value x).2.1.value x = ((s.value x).1, (s.value x).2.1, false) ∧
    (y ≠ x → mapGet (s.value x).2.1.valueMap y = mapGet s.valueMap y) := by
  have hnew : (LazyResult.new f).Consistent := by
    intro a v hv
    simp [LazyResult.new, mapGet] at hv
  cases h : mapGet s.valueMap x with
  | none =>
      refine ⟨hnew, ?_, ?_, ?_, ?_, ?_⟩
      · simp [LazyResult.value, h]
      · intro a v hv
        simp only [LazyResult.value, h] at hv ⊢
        simp only [mapGet] at hv
        split at hv
        · rename_i hxa
          simp only [Option.some.injEq] at hv
          subst hxa
          exact hv.symm
        · exact hs a v hv
      · simp [LazyResult.value, h]
      · simp [LazyResult.value, h, mapGet]
      · intro hyx
        simp only [LazyResult.value, h]
        simp only [mapGet]
        rw [if_neg (by exact fun hxy => hyx hxy.symm)]
  | some v =>
      refine ⟨hnew, ?_, ?_, ?_, ?_, ?_⟩
      · simp only [LazyResult.value, h]
        exact hs x v h
      · simpa [LazyResult.value, h] using hs
      · simp [LazyResult.value, h]
      · simp [LazyResult.value, h]
      · intro _
        simp [LazyResult.value, h]

/-- C5 witness: the cache behaviour at a fresh `LazyResult` over the
identity calculation, keys 7 and 8. -/
theorem c5_cache_witness :
    ((LazyResult.new (fun z : ℤ => (z : ℚ))).Consistent) ∧
    ((LazyResult.new (fun z : ℤ => (z : ℚ))).value 7).1 =
      (LazyResult.new (fun z : ℤ => (z : ℚ))).calculation 7 ∧
    ((LazyResult.new (fun z : ℤ => (z : ℚ))).value 7).2.1.Consistent ∧
    ((LazyResult.new (fun z : ℤ => (z : ℚ))).value 7).2.1.calculation =
      (LazyResult.new (fun z : ℤ => (z : ℚ))).calculation ∧
    ((LazyResult.new (fun z : ℤ => (z : ℚ))).value 7).2.1.value 7 =
      (((LazyResult.new (fun z : ℤ => (z : ℚ))).value 7).1,
        ((LazyResult.new (fun z : ℤ => (z : ℚ))).value 7).2.1, false) ∧
    mapGet ((LazyResult.new (fun z : ℤ => (z : ℚ))).value 7).2.1.valueMap 8 =
      mapGet (LazyResult.new (fun z : ℤ => (z : ℚ))).valueMap 8 := by
  have h := c5_cache (fun z : ℤ => (z : ℚ)) (LazyResult.new (fun z : ℤ => (z : ℚ))) 7 8
    (by intro a v hv; simp [LazyResult.new, mapGet] at hv)
  exact ⟨h.1, h.2.1, h.2.2.1, h.2.2.2.1, h.2.2.2.2.1, h.2.2.2.2.2 (by decide)⟩

lemma value_stable (s : LazyResult) (x : ℤ) :
    (s.value x).2.1.value x = ((s.value x).1, (s.value x).2.1, false) := by
  cases h : mapGet s.valueMap x <;> simp [LazyResult.value, h, mapGet]

/-- C8: the three loop outcomes.  ESC or quit leaves the loop printing
nothing; a left click with no `--command-on-click` configured, or Return
in any configuration, leaves the loop printing the current mapped value;
a left click with `--command-on-click` configured spawns that command with
the current mapped value and stays in the loop; every other event does
nothing. -/
theorem c8_termination (opt : Options) (dbar : LazyResult) (fill_pixels : ℤ) :
    handleEvent opt dbar fill_pixels (.keyDown .escape) = (.halt none, dbar) ∧
    handleEvent opt dbar fill_pixels .quit = (.halt none, dbar) ∧
    handleEvent opt dbar fill_pixels .mouseButtonDownLeft =
      (if opt.command_on_click = "" then
        (.halt (some (dbar.value fill_pixels).1), (dbar.value fill_pixels).2.1)
      else
        (.keep (some (opt.command_on_click, (dbar.value fill_pixels).1)),
          (dbar.value fill_pixels).2.1)) ∧
    handleEvent opt dbar fill_pixels (.keyDown .ret) =
      (.halt (some (dbar.value fill_pixels).1), (dbar.value fill_pixels).2.1) ∧
    handleEvent opt dbar fill_pixels (.keyDown .other) = (.keep none, dbar) ∧
    handleEvent opt dbar fill_pixels .other = (.keep none, dbar) := by
  refine ⟨rfl, rfl, ?_, rfl, rfl, rfl⟩
  by_cases h : opt.command_on_click = "" <;> simp [handleEvent, h]

/-- The spec's firing condition: the current mapped value differs from the
last-emitted value, or no value was emitted yet. -/
def valueChangedSpec (last_val : Option ℚ) (v : ℚ) : Bool :=
  match last_val with
  | some w => decide (w ≠ v)
  | none => true

/-- C7: side effects are debounced by value.  On a redrawn frame the title
update fires exactly when `--show-value` is set and the mapped value
differs from the last-emitted one (or none was emitted); the continuous
command fires exactly when `--command` is set under the same value
condition; the last-emitted value becomes the current one exactly when at
least one of the two fires; and with neither option set nothing fires, the
last-emitted value is untouched, and no value is even computed (the cache
state is returned unchanged). -/
theorem c7_debounce (opt : Options) (dbar : LazyResult) (fp : ℤ)
    (lv : Option ℚ) :
    (frameEffects opt dbar fp lv).title_update =
      (if opt.show_value && valueChangedSpec lv (dbar.value fp).1
       then some (dbar.value fp).1 else none) ∧
    (frameEffects opt dbar fp lv).command_run =
      (if decide (opt.command ≠ "") && valueChangedSpec lv (dbar.value fp).1
       then some (opt.command, (dbar.value fp).1) else none) ∧
    (frameEffects opt dbar fp lv).last_val =
      (if (opt.show_value && valueChangedSpec lv (dbar.value fp).1) ||
          (decide (opt.command ≠ "") && valueChangedSpec lv (dbar.value fp).1)
       then some (dbar.value fp).1 else lv) ∧
    (opt.command = "" → opt.show_value = false →
      (frameEffects opt dbar fp lv).title_update = none ∧
      (frameEffects opt dbar fp lv).command_run = none ∧
      (frameEffects opt dbar fp lv).last_val = lv ∧
      (frameEffects opt dbar fp lv).dbar = dbar) := by
  have hst := value_stable dbar fp
  cases hsv : opt.show_value <;> by_cases hcmd : opt.command = "" <;>
    rcases lv with _ | w <;>
    simp only [frameEffects, valueChangedSpec, hsv, hcmd, hst, ne_eq,
      decide_not, Bool.false_and, Bool.and_false, Bool.true_and,
      Bool.and_true, Bool.false_or, Bool.or_false, Bool.or_self,
      Bool.not_true, Bool.not_false,
      if_true, if_false, ite_true, ite_false] <;>
    constructor <;> simp_all <;> split <;> simp_all

/-- C7 witness: with neither `--command` nor `--show-value` configured
(the defaults), nothing fires, `last_val` stays `none`, and the cache is
untouched. -/
theorem c7_debounce_witness :
    (frameEffects defaultOptions (LazyResult.new fun _ => (42 : ℚ)) 0
        none).title_update = none ∧
    (frameEffects defaultOptions (LazyResult.new fun _ => (42 : ℚ)) 0
        none).command_run = none ∧
    (frameEffects defaultOptions (LazyResult.new fun _ => (42 : ℚ)) 0
        none).last_val = none ∧
    (frameEffects defaultOptions (LazyResult.new fun _ => (42 : ℚ)) 0
        none).dbar = LazyResult.new fun _ => (42 : ℚ) :=
  (c7_debounce defaultOptions (LazyResult.new fun _ => (42 : ℚ)) 0 none).2.2.2
    rfl rfl

lemma substPercentV_of_not_contains (s rep : List Char) :
    containsPV s = false → substPercentV s rep = s := by
  induction s using containsPV.induct with
  | case1 => intro _; rw [substPercentV.eq_1]
  | case2 tail => intro h; rw [containsPV.eq_2] at h; cases h
  | case3 head rest hne ih =>
      intro h
      rw [containsPV.eq_3 head rest hne] at h
      rw [substPercentV.eq_3 rep head rest hne, ih h]

lemma substPercentV_append (a b rep : List Char) :
    containsPV a = false →
    substPercentV (a ++ '%' :: 'v' :: b) rep = a ++ rep ++ substPercentV b rep := by
  induction a using containsPV.induct with
  | case1 => intro _; simp [substPercentV.eq_2]
  | case2 tail => intro h; rw [containsPV.eq_2] at h; cases h
  | case3 head rest hne ih =>
      intro h
      rw [containsPV.eq_3 head rest hne] at h
      have hcond : ∀ t', head = '%' → rest ++ '%' :: 'v' :: b = 'v' :: t' → False := by
        intro t' hh hr
        cases rest with
        | nil => simp at hr
        | cons r rs =>
            rw [List.cons_append] at hr
            obtain ⟨hr1, _⟩ := List.cons.inj hr
            exact hne rs hh (by rw [hr1])
      rw [List.cons_append, substPercentV.eq_3 rep head _ hcond, ih h]
      simp

/-- C9: command-template substitution.  `substPercentV` replaces every
occurrence of `%v`: a template that is a `%v`-free prefix followed by a
`%v` and a tail substitutes the value there and continues in the tail; a
`%v`-free template is left unchanged; and concretely the template
`"echo %v"` with value text `"42"` hands `"echo 42"` to the shell. -/
theorem c9_substitution :
    (∀ a b rep : List Char, containsPV a = false →
      substPercentV (a ++ '%' :: 'v' :: b) rep = a ++ rep ++ substPercentV b rep) ∧
    (∀ a rep : List Char, containsPV a = false → substPercentV a rep = a) ∧
    run_command "echo %v" "42" = "echo 42" :=
  ⟨fun a b rep h => substPercentV_append a b rep h,
   fun a rep h => substPercentV_of_not_contains a rep h,
   by decide⟩

/-- C9 witness: the substitution equations at the concrete template
`"a%v"` with value text `"42"`. -/
theorem c9_substitution_witness :
    (containsPV [ 'a' ] = false ∧
      substPercentV ([ 'a' ] ++ '%' :: 'v' :: []) ['4', '2'] =
        [ 'a' ] ++ ['4', '2'] ++ substPercentV [] ['4', '2']) ∧
    (containsPV [ 'a' ] = false ∧ substPercentV [ 'a' ] ['4', '2'] = [ 'a' ]) :=
  ⟨⟨by decide, c9_substitution.1 [ 'a' ] [] ['4', '2'] (by decide)⟩,
   ⟨by decide, c9_substitution.2.1 [ 'a' ] ['4', '2'] (by decide)⟩⟩

lemma hexDigitVal_class (c : Char) (h : (hexDigitVal c).isSome = true) :
    inColorClass c = true := by
  unfold hexDigitVal at h
  unfold inColorClass
  split_ifs at h with h1 h2 h3
  · simp [h1.1, h1.2]
  · simp [h2.1, h2.2]
  · simp [h3.1, h3.2]
  · simp at h

lemma parseHexByte_isSome (c d : Char) :
    (parseHexByte c d).isSome = ((hexDigitVal c).isSome && (hexDigitVal d).isSome) := by
  unfold parseHexByte
  cases hexDigitVal c <;> cases hexDigitVal d <;> simp

/-- The input refuting C10: a `#`, six hex digits — and then two more
trailing characters; not a `#rrggbb` string, yet accepted. -/
def c10Input : List Char := ['#', '1', '2', '3', '4', '5', '6', 'f', 'f']

/-- C10 (counterexample): the regex `^#[a-f,A-F,0-9]{6}` has no `$`
anchor, so `"#123456ff"` — which is not the `#rrggbb` pattern — does not
panic: it parses to the color `(0x12, 0x34, 0x56)` with the trailing
`"ff"` silently ignored. -/
theorem c10_counterexample :
    string_to_color c10Input = some ⟨18, 52, 86⟩ ∧
    specColorPattern c10Input = false := by
  constructor <;> decide

/-- C10 (amended): `string_to_color` panics exactly when the argument does
not *begin with* `#` followed by six hexadecimal digits (trailing
characters are ignored), and on every accepted string it returns the RGB
color of the three parsed two-digit hex bytes.  (The comma the regex class
admits changes only the panic site, not the panics-iff condition: a comma
passes the regex but makes the corresponding `from_str_radix` unwrap
panic.) -/
theorem c10_color_semantics :
    (∀ s : List Char, (string_to_color s).isSome = prefixColorPattern s) ∧
    (∀ c0 c1 c2 c3 c4 c5 c6 : Char, ∀ rest : List Char, ∀ r g b : ℕ,
      c0 = '#' →
      parseHexByte c1 c2 = some r → parseHexByte c3 c4 = some g →
      parseHexByte c5 c6 = some b →
      string_to_color (c0 :: c1 :: c2 :: c3 :: c4 :: c5 :: c6 :: rest) =
        some ⟨r, g, b⟩) := by
  constructor
  · intro s
    rcases s with _ | ⟨c0, _ | ⟨c1, _ | ⟨c2, _ | ⟨c3, _ | ⟨c4, _ | ⟨c5, _ | ⟨c6, rest⟩⟩⟩⟩⟩⟩⟩
    all_goals try (simp [string_to_color, regexMatches, prefixColorPattern]; done)
    have key : (string_to_color (c0 :: c1 :: c2 :: c3 :: c4 :: c5 :: c6 :: rest)).isSome
        = (regexMatches (c0 :: c1 :: c2 :: c3 :: c4 :: c5 :: c6 :: rest) &&
           ((parseHexByte c1 c2).isSome && (parseHexByte c3 c4).isSome &&
            (parseHexByte c5 c6).isSome)) := by
      unfold string_to_color
      by_cases hreg : regexMatches (c0 :: c1 :: c2 :: c3 :: c4 :: c5 :: c6 :: rest) = true
      · rw [if_pos hreg, hreg]
        cases hp1 : parseHexByte c1 c2 <;> cases hp2 : parseHexByte c3 c4 <;>
          cases hp3 : parseHexByte c5 c6 <;> simp [hp1, hp2, hp3]
      · have hreg' : regexMatches (c0 :: c1 :: c2 :: c3 :: c4 :: c5 :: c6 :: rest) = false :=
          Bool.eq_false_iff.mpr hreg
        rw [if_neg hreg, hreg']
        simp
    rw [key, parseHexByte_isSome, parseHexByte_isSome, parseHexByte_isSome,
      Bool.eq_iff_iff]
    have hc1 := hexDigitVal_class c1
    have hc2 := hexDigitVal_class c2
    have hc3 := hexDigitVal_class c3
    have hc4 := hexDigitVal_class c4
    have hc5 := hexDigitVal_class c5
    have hc6 := hexDigitVal_class c6
    simp only [regexMatches, prefixColorPattern, Bool.and_eq_true, decide_eq_true_eq]
    constructor
    · rintro ⟨⟨⟨⟨⟨⟨⟨h0, k1⟩, k2⟩, k3⟩, k4⟩, k5⟩, k6⟩, ⟨x1, x2⟩, x3⟩
      exact ⟨⟨⟨⟨⟨⟨h0, x1.1⟩, x1.2⟩, x2.1⟩, x2.2⟩, x3.1⟩, x3.2⟩
    · rintro ⟨⟨⟨⟨⟨⟨h0, x1⟩, x2⟩, x3⟩, x4⟩, x5⟩, x6⟩
      exact ⟨⟨⟨⟨⟨⟨⟨h0, hc1 x1⟩, hc2 x2⟩, hc3 x3⟩, hc4 x4⟩, hc5 x5⟩, hc6 x6⟩,
        ⟨⟨x1, x2⟩, ⟨x3, x4⟩⟩, x5, x6⟩
  · intro c0 c1 c2 c3 c4 c5 c6 rest r g b h0 hp1 hp2 hp3
    subst h0
    have hx1 : (hexDigitVal c1).isSome = true ∧ (hexDigitVal c2).isSome = true := by
      have h := parseHexByte_isSome c1 c2
      rw [hp1] at h
      constructor <;> simp_all
    have hx2 : (hexDigitVal c3).isSome = true ∧ (hexDigitVal c4).isSome = true := by
      have h := parseHexByte_isSome c3 c4
      rw [hp2] at h
      constructor <;> simp_all
    have hx3 : (hexDigitVal c5).isSome = true ∧ (hexDigitVal c6).isSome = true := by
      have h := parseHexByte_isSome c5 c6
      rw [hp3] at h
      constructor <;> simp_all
    have hreg : regexMatches ('#' :: c1 :: c2 :: c3 :: c4 :: c5 :: c6 :: rest) = true := by
      have k1 := hexDigitVal_class c1 hx1.1
      have k2 := hexDigitVal_class c2 hx1.2
      have k3 := hexDigitVal_class c3 hx2.1
      have k4 := hexDigitVal_class c4 hx2.2
      have k5 := hexDigitVal_class c5 hx3.1
      have k6 := hexDigitVal_class c6 hx3.2
      simp [regexMatches, k1, k2, k3, k4, k5, k6]
    unfold string_to_color
    rw [if_pos hreg]
    simp [hp1, hp2, hp3]

/-- C10 witness: the amended semantics at the default foreground color
`"#9c99c3"`. -/
theorem c10_color_semantics_witness :
    (string_to_color ['#', '9', 'c', '9', '9', 'c', '3']).isSome =
      prefixColorPattern ['#', '9', 'c', '9', '9', 'c', '3'] ∧
    string_to_color ['#', '9', 'c', '9', '9', 'c', '3'] =
      some ⟨156, 153, 195⟩ :=
  ⟨c10_color_semantics.1 ['#', '9', 'c', '9', '9', 'c', '3'],
   c10_color_semantics.2 '#' '9' 'c' '9' '9' 'c' '3' [] 156 153 195 rfl
     (by decide) (by decide) (by decide)⟩

end Dbar
